import Mathlib

/-!
Shallow embedding of the CableEye report dashboard.

Sources embedded:
- src/src/app/dashboard/page.tsx: the Firestore-backed dashboard controller
  (fetchReports, handleDeleteReport, handleFormSubmit and the cache held in
  the reports state variable).
- src/src/components/cable-report-form.tsx: the zod reportSchema and the
  processSubmit gate that invokes the controller only on validation success.
- src/src/app/login/page.tsx (second embedded page, AdminDashboardPage,
  local-storage variant): the useEffect that loads the cache from the
  cableReports local-storage key.

Timestamps (JS Date values compared through getTime) are modelled as Nat
epoch milliseconds.  Store calls are modelled by passing their outcome as an
argument: the controller awaits the store call before touching the cache, so
the cache transformation is a pure function of the draft, the prior cache and
the store outcome.  URL.createObjectURL is modelled by an explicit mkUrl
function argument.
-/

namespace CableEye

/-- The status union type of dashboard/page.tsx (line 21). -/
inductive Status where
  | identified
  | doubtful
  | not_yet_identified
deriving DecidableEq, Repr

/-- A File value as used by the form: only its name is read by the code. -/
structure PhotoFile where
  name : String
deriving DecidableEq, Repr

/-- The Report interface of dashboard/page.tsx (lines 14-24). -/
structure Report where
  id : String
  latitude : String
  longitude : String
  photo : Option PhotoFile := none
  photoUrl : Option String := none
  photoFileName : Option String := none
  status : Status
  description : String
  timestamp : Nat
deriving DecidableEq, Repr

/-- ReportFormValues: the typed draft produced by a successful zod parse
(cable-report-form.tsx line 25). -/
structure ReportFormValues where
  latitude : String
  longitude : String
  photo : Option PhotoFile := none
  status : Status
  description : String
deriving DecidableEq, Repr

/-- The raw form field values before zod validation; status arrives as a
plain string from the Select widget. -/
structure RawDraft where
  latitude : String
  longitude : String
  photo : Option PhotoFile := none
  status : String
  description : String
deriving DecidableEq, Repr

/-- A field-level validation error as reported through formState.errors. -/
structure FieldError where
  field : String
  message : String
deriving DecidableEq, Repr

/-- The z.enum check of reportSchema (cable-report-form.tsx line 21). -/
def parseStatus (s : String) : Option Status :=
  if s = "identified" then some .identified
  else if s = "doubtful" then some .doubtful
  else if s = "not_yet_identified" then some .not_yet_identified
  else none

/-- The field errors collected by reportSchema (cable-report-form.tsx lines
17-23), in field declaration order: latitude and longitude non-empty, status
in the enumerated set, description 1-500 characters; the photo field is
z.any().optional() and never fails. -/
def validationErrors (d : RawDraft) : List FieldError :=
  (if d.latitude = "" then [⟨"latitude", "Latitude is required."⟩] else []) ++
  (if d.longitude = "" then [⟨"longitude", "Longitude is required."⟩] else []) ++
  (if (parseStatus d.status).isNone then [⟨"status", "Status is required."⟩] else []) ++
  (if d.description = "" then [⟨"description", "Description is required."⟩] else []) ++
  (if 500 < d.description.length then [⟨"description", "Description too long."⟩] else [])

/-- reportSchema as run by zodResolver: a parse of the raw field values into
ReportFormValues, failing with the collected field errors. -/
def reportSchema (d : RawDraft) : Except (List FieldError) ReportFormValues :=
  match parseStatus d.status with
  | some st =>
      if validationErrors d = [] then
        .ok { latitude := d.latitude, longitude := d.longitude, photo := d.photo,
              status := st, description := d.description }
      else .error (validationErrors d)
  | none => .error (validationErrors d)

/-- Outcome of a store write (addDoc or updateDoc).  For addDoc the ok case
carries the server-assigned document id (docRef.id); for updateDoc the id is
unused.  The err case models the awaited promise rejecting. -/
inductive StoreWriteResult where
  | ok (docId : String)
  | err
deriving DecidableEq, Repr

/-- The updatedReport construction of the edit branch of handleFormSubmit
(dashboard/page.tsx lines 128-140): spread of the existing report, then the
spread of formData (latitude, longitude, photo, status, description), then
timestamp set to now, photoFileName kept when no new photo is supplied, and
photoUrl replaced by a fresh object URL only when a new photo is supplied. -/
def mergeReport (r : Report) (formData : ReportFormValues) (now : Nat)
    (mkUrl : PhotoFile → String) : Report :=
  { r with
    latitude := formData.latitude
    longitude := formData.longitude
    photo := formData.photo
    status := formData.status
    description := formData.description
    timestamp := now
    photoFileName :=
      match formData.photo with
      | some p => some p.name
      | none => r.photoFileName
    photoUrl :=
      match formData.photo with
      | some p => some (mkUrl p)
      | none => r.photoUrl }

/-- The newReport construction of the create branch of handleFormSubmit
(dashboard/page.tsx lines 148-154): id is the docRef.id returned by addDoc,
timestamp is the local current time. -/
def newReport (docId : String) (formData : ReportFormValues) (now : Nat)
    (mkUrl : PhotoFile → String) : Report :=
  { id := docId
    latitude := formData.latitude
    longitude := formData.longitude
    photo := formData.photo
    photoUrl := formData.photo.map mkUrl
    photoFileName := formData.photo.map (fun p => p.name)
    status := formData.status
    description := formData.description
    timestamp := now }

/-- The comparator of dashboard/page.tsx line 155,
(a,b) => b.timestamp.getTime() - a.timestamp.getTime(), read as the
before-or-tied relation of the sort: a precedes b when the comparator is
non-positive, i.e. when b.timestamp is at most a.timestamp. -/
def tsDescLe (a b : Report) : Bool :=
  b.timestamp ≤ a.timestamp

/-- The Array.prototype.sort call of line 155; JS sort is stable, modelled by
the stable List.mergeSort. -/
def sortReportsByTimestampDesc (l : List Report) : List Report :=
  l.mergeSort tsDescLe

/-- The cache invariant of the spec: reports ordered by timestamp
descending. -/
def sortedByTimestampDesc (l : List Report) : Prop :=
  l.Pairwise fun a b => tsDescLe a b = true

instance : DecidablePred sortedByTimestampDesc := fun l =>
  List.instDecidablePairwise l

/-- Result of one handleFormSubmit call: the new reports state, the toast
title surfaced, and whether the canonical refetch was triggered. -/
structure SubmitOutcome where
  reports : List Report
  toast : String
  refetchTriggered : Bool
deriving DecidableEq, Repr

/-- handleFormSubmit (dashboard/page.tsx lines 109-170).  The store call is
awaited first in both branches, so when it fails (the catch block) the
reports state is untouched and the toast "Error Saving Report" is shown.  On
success the edit branch maps the cache in place and the create branch
prepends the new report and re-sorts by timestamp descending. -/
def handleFormSubmit (formData : ReportFormValues) (reportIdToEdit : Option String)
    (storeResult : StoreWriteResult) (now : Nat) (mkUrl : PhotoFile → String)
    (prevReports : List Report) : SubmitOutcome :=
  match storeResult with
  | .err =>
      { reports := prevReports, toast := "Error Saving Report", refetchTriggered := false }
  | .ok docId =>
      match reportIdToEdit with
      | some eid =>
          { reports := prevReports.map fun r =>
              if r.id = eid then mergeReport r formData now mkUrl else r
            toast := "Report Updated!"
            refetchTriggered := true }
      | none =>
          { reports := sortReportsByTimestampDesc (newReport docId formData now mkUrl :: prevReports)
            toast := "Report Submitted!"
            refetchTriggered := true }

/-- The reportData document sent to Firestore by handleFormSubmit
(dashboard/page.tsx lines 110-117); editingReport is the component state of
the report being edited, read for the fallback photoFileName. -/
structure StoreReportData where
  latitude : String
  longitude : String
  status : Status
  description : String
  photoFileName : Option String
deriving DecidableEq, Repr

/-- Construction of the Firestore payload (dashboard/page.tsx lines 110-117). -/
def reportDataPayload (formData : ReportFormValues) (editingReport : Option Report) :
    StoreReportData :=
  { latitude := formData.latitude
    longitude := formData.longitude
    status := formData.status
    description := formData.description
    photoFileName :=
      match formData.photo with
      | some p => some p.name
      | none => editingReport.bind fun r => r.photoFileName }

/-- handleDeleteReport (dashboard/page.tsx lines 88-107): the confirm dialog
gates everything; deleteDoc is awaited before the cache filter, so a failing
store delete (the catch block) leaves the reports state untouched and only
shows the error toast.  Returns the new cache and the toast title, if any. -/
def handleDeleteReport (confirmed : Bool) (storeDeleteOk : Bool) (reportId : String)
    (prevReports : List Report) : List Report × Option String :=
  if confirmed = false then
    (prevReports, none)
  else if storeDeleteOk then
    (prevReports.filter fun r => r.id ≠ reportId, some "Report Deleted")
  else
    (prevReports, some "Error Deleting Report")

/-- fetchReports (dashboard/page.tsx lines 46-71): on success the cache is
replaced wholesale by the list the store returns (queried with orderBy
timestamp descending); on failure the catch block leaves the cache as it
was.  The store outcome is passed as an argument. -/
def fetchReports (storeList : Option (List Report)) (prevReports : List Report) :
    List Report :=
  match storeList with
  | some l => l
  | none => prevReports

/-- The form submit pipeline: handleSubmit(processSubmit) of
cable-report-form.tsx (lines 148-151, 165) runs zod first and calls
onReportSubmit (the controller handleFormSubmit) only when validation
succeeds, passing the optional id of the report being edited. -/
structure FormSubmitOutcome where
  reports : List Report
  storeCalled : Bool
  fieldErrors : List FieldError
  toast : Option String
deriving DecidableEq, Repr

/-- One full submit through the form: validation, then the controller. -/
def formSubmit (raw : RawDraft) (initialData : Option Report)
    (storeResult : StoreWriteResult) (now : Nat) (mkUrl : PhotoFile → String)
    (prevReports : List Report) : FormSubmitOutcome :=
  match reportSchema raw with
  | .error es =>
      { reports := prevReports, storeCalled := false, fieldErrors := es, toast := none }
  | .ok formData =>
      let o := handleFormSubmit formData (initialData.map fun r => r.id)
        storeResult now mkUrl prevReports
      { reports := o.reports, storeCalled := true, fieldErrors := [], toast := some o.toast }

/-- The local-storage load of the AdminDashboardPage variant
(login/page.tsx lines 145-155): localStorage.getItem of the cableReports
key, then JSON.parse inside try/catch; on a parse failure the catch only
logs, so the reports state keeps its initial empty value.  The parse
argument models JSON.parse plus the timestamp revival map, returning none
when JSON.parse throws. -/
def adminLoadReports (stored : Option String)
    (parse : String → Option (List Report)) : List Report :=
  match stored with
  | some s =>
      match parse s with
      | some l => l
      | none => []
  | none => []

/-- The value left under the cableReports key by that same useEffect: the
code never writes or removes the key, so it is returned unchanged. -/
def adminStoredKeyAfterLoad (stored : Option String)
    (_parse : String → Option (List Report)) : Option String :=
  stored

/-- A concrete valid draft (the scenario draft of the spec), no photo. -/
def sampleDraft : ReportFormValues :=
  { latitude := "34.0522", longitude := "-118.2437", photo := none,
    status := .doubtful, description := "Loose cable" }

/-- A concrete object-URL generator standing in for URL.createObjectURL. -/
def sampleUrl : PhotoFile → String :=
  fun p => "blob:" ++ p.name

/-- A concrete cached report with timestamp 10. -/
def reportA : Report :=
  { id := "a", latitude := "1", longitude := "2", status := .identified,
    description := "first", timestamp := 10 }

/-- A concrete cached report with timestamp 5. -/
def reportB : Report :=
  { id := "b", latitude := "3", longitude := "4", status := .doubtful,
    description := "second", timestamp := 5 }

/-- A concrete cached report whose timestamp 30 lies later than the clock
value 5 used in the C2 counterexample (a server-assigned timestamp ahead of
the local clock). -/
def reportF : Report :=
  { id := "f", latitude := "7", longitude := "8", status := .not_yet_identified,
    description := "future", timestamp := 30 }

/-- A concrete raw draft whose latitude is empty, failing validation. -/
def rawInvalid : RawDraft :=
  { latitude := "", longitude := "-118.2437", photo := none,
    status := "doubtful", description := "Loose cable" }

/-- Helper: a draft violating any of the validation rules yields a nonempty
error list. -/
theorem validationErrors_ne_nil (raw : RawDraft)
    (h : raw.latitude = "" ∨ raw.longitude = "" ∨ raw.description = "" ∨
         500 < raw.description.length ∨ parseStatus raw.status = none) :
    validationErrors raw ≠ [] := by
  intro hc
  simp only [validationErrors, List.append_eq_nil] at hc
  obtain ⟨⟨⟨⟨h1, h2⟩, h3⟩, h4⟩, h5⟩ := hc
  rcases h with h | h | h | h | h
  · simp [h] at h1
  · simp [h] at h2
  · simp [h] at h4
  · simp [h] at h5
  · simp [h] at h3

/-- Helper: when the error list is nonempty the schema parse fails with it. -/
theorem reportSchema_error_of_ne_nil (raw : RawDraft)
    (h : validationErrors raw ≠ []) :
    reportSchema raw = .error (validationErrors raw) := by
  unfold reportSchema
  cases parseStatus raw.status with
  | some st => simp [h]
  | none => rfl

/-- Helper: the comparator of line 155 is transitive. -/
theorem tsDescLe_trans (a b c : Report) :
    tsDescLe a b → tsDescLe b c → tsDescLe a c := by
  simp only [tsDescLe, decide_eq_true_eq]
  omega

/-- Helper: the comparator of line 155 is total. -/
theorem tsDescLe_total (a b : Report) : tsDescLe a b || tsDescLe b a := by
  simp only [tsDescLe, Bool.or_eq_true, decide_eq_true_eq]
  omega

/-- C1 (counterexample to the claim as stated): submitting the concrete valid
draft with no editingId against a failing store, starting from the empty
cache, surfaces the error toast but leaves the cache empty; no optimistic
entry for the draft is present afterwards, because the store call is awaited
before the cache is touched.  This refutes the claim that the optimistic
entry remains in the cache after the failure. -/
theorem C1_counterexample :
    (handleFormSubmit sampleDraft none .err 5 sampleUrl []).toast
        = "Error Saving Report" ∧
    (handleFormSubmit sampleDraft none .err 5 sampleUrl []).reports = [] :=
  ⟨rfl, rfl⟩

/-- C1 (amended): for every draft, with or without an editingId, when the
store write fails the controller surfaces the user-visible error toast and
the cache is exactly the previous cache: unchanged, with no optimistic entry
inserted, because handleFormSubmit awaits the store write before mutating the
reports state. -/
theorem C1_amended_store_failure_surfaces_error_cache_unchanged
    (formData : ReportFormValues) (reportIdToEdit : Option String) (now : Nat)
    (mkUrl : PhotoFile → String) (prev : List Report) :
    (handleFormSubmit formData reportIdToEdit .err now mkUrl prev).toast
        = "Error Saving Report" ∧
    (handleFormSubmit formData reportIdToEdit .err now mkUrl prev).reports = prev :=
  ⟨rfl, rfl⟩

/-- C2 (counterexample to the claim as stated): two failures at concrete
inputs.  First, with all local inputs fixed (same draft, same clock value 5,
same empty cache), two different store responses yield head entries with two
different ids, each equal to the docRef.id returned by addDoc: the inserted
id is the store-assigned document id, not a locally-generated provisional id
as the claim states.  Second, against the pre-existing cache [reportF] whose
entry carries timestamp 30, later than the clock value 5, the re-sort of
line 155 places the new entry below that entry: the cache becomes
[f, srv1], so the new entry is not inserted at the head as the claim
states. -/
theorem C2_counterexample :
    ((handleFormSubmit sampleDraft none (.ok "srv1") 5 sampleUrl []).reports.map
        fun r => r.id) = ["srv1"] ∧
    ((handleFormSubmit sampleDraft none (.ok "srv2") 5 sampleUrl []).reports.map
        fun r => r.id) = ["srv2"] ∧
    ((handleFormSubmit sampleDraft none (.ok "srv1") 5 sampleUrl [reportF]).reports.map
        fun r => r.id) = ["f", "srv1"] := by
  refine ⟨?_, ?_, ?_⟩ <;>
    simp [handleFormSubmit, sortReportsByTimestampDesc, newReport, List.mergeSort,
      List.splitInTwo, List.merge, tsDescLe, reportF, sampleDraft]

/-- C2 (amended): for every valid draft, a submit with no editingId whose
store create succeeds with document id docId inserts exactly one new entry,
carrying the store-assigned id docId and the current local time as its
timestamp, and the resulting cache is always a permutation of that new entry
consed onto the previous cache, so all pre-existing entries are retained
unconditionally; moreover, whenever the previous cache is sorted by
timestamp descending with no entry later than now, the new entry sits
exactly at the head with the rest unchanged. -/
theorem C2_amended_create_inserts_store_id_entry_at_head
    (formData : ReportFormValues) (docId : String) (now : Nat)
    (mkUrl : PhotoFile → String) (prev : List Report) :
    (handleFormSubmit formData none (.ok docId) now mkUrl prev).reports.Perm
        (newReport docId formData now mkUrl :: prev) ∧
    (newReport docId formData now mkUrl).id = docId ∧
    (newReport docId formData now mkUrl).timestamp = now ∧
    (sortedByTimestampDesc prev → (∀ r ∈ prev, r.timestamp ≤ now) →
      (handleFormSubmit formData none (.ok docId) now mkUrl prev).reports
        = newReport docId formData now mkUrl :: prev) := by
  refine ⟨List.mergeSort_perm _ _, rfl, rfl, ?_⟩
  intro hsorted hle
  have hsorted2 : List.Pairwise (fun a b => tsDescLe a b = true)
      (newReport docId formData now mkUrl :: prev) := by
    refine List.Pairwise.cons ?_ hsorted
    intro b hb
    simp only [tsDescLe, newReport, decide_eq_true_eq]
    exact hle b hb
  exact List.mergeSort_of_sorted hsorted2

/-- C2 (witness): the amended theorem applied to the concrete draft, store id
srv9, clock 20 and the sorted two-entry cache, discharging the sortedness
and no-later-timestamp hypotheses of the head conjunct. -/
theorem C2_amended_witness :
    sortedByTimestampDesc [reportA, reportB] ∧
    (∀ r ∈ [reportA, reportB], r.timestamp ≤ 20) ∧
    (handleFormSubmit sampleDraft none (.ok "srv9") 20 sampleUrl
        [reportA, reportB]).reports
      = newReport "srv9" sampleDraft 20 sampleUrl :: [reportA, reportB] :=
  ⟨by decide, by decide,
    (C2_amended_create_inserts_store_id_entry_at_head sampleDraft "srv9" 20 sampleUrl
      [reportA, reportB]).2.2.2 (by decide) (by decide)⟩

/-- C3 (counterexample to the claim as stated): editing report b (timestamp
5) of the sorted cache [reportA(10), reportB(5)] at local time 20 with a
succeeding store update splices the merged report in place without
re-deriving the sort order, leaving [timestamp 10, timestamp 20], which is
not sorted by timestamp descending.  The edit branch of handleFormSubmit
maps the cache in place and never sorts. -/
theorem C3_counterexample :
    ¬ sortedByTimestampDesc
      (handleFormSubmit sampleDraft (some "b") (.ok "") 20 sampleUrl
        [reportA, reportB]).reports := by
  decide

/-- C3 (amended): refetch with the store list (which the store returns
ordered by timestamp descending), optimistic insert of a new report, delete
(for every confirmation and store outcome), and a failed submit all leave the
cache sorted by timestamp descending; the in-place edit splice is excluded,
since it rewrites the edited entry with a fresh timestamp without
re-sorting. -/
theorem C3_amended_sortedness_without_edit
    (storeList prev : List Report)
    (hstore : sortedByTimestampDesc storeList)
    (hprev : sortedByTimestampDesc prev)
    (formData : ReportFormValues) (docId : String) (now : Nat)
    (mkUrl : PhotoFile → String) (confirmed storeOk : Bool) (rid : String)
    (reportIdToEdit : Option String) :
    sortedByTimestampDesc (fetchReports (some storeList) prev) ∧
    sortedByTimestampDesc
      (handleFormSubmit formData none (.ok docId) now mkUrl prev).reports ∧
    sortedByTimestampDesc (handleDeleteReport confirmed storeOk rid prev).1 ∧
    sortedByTimestampDesc
      (handleFormSubmit formData reportIdToEdit .err now mkUrl prev).reports := by
  refine ⟨hstore, ?_, ?_, hprev⟩
  · exact List.sorted_mergeSort tsDescLe_trans tsDescLe_total _
  · unfold handleDeleteReport
    cases confirmed with
    | false => simpa using hprev
    | true =>
        cases storeOk with
        | false => simpa using hprev
        | true =>
            simp only [Bool.true_eq_false, if_false, if_true]
            exact hprev.sublist (List.filter_sublist _)

/-- C3 (witness): the amended theorem applied to the concrete sorted caches,
reading off the delete conjunct for a successful confirmed delete of a. -/
theorem C3_amended_witness :
    sortedByTimestampDesc [reportA, reportB] ∧
    sortedByTimestampDesc
      (handleDeleteReport true true "a" [reportA, reportB]).1 :=
  ⟨by decide,
    (C3_amended_sortedness_without_edit [reportA, reportB] [reportA, reportB]
      (by decide) (by decide) sampleDraft "srv9" 20 sampleUrl true true "a"
      none).2.2.1⟩

/-- C4: for every raw draft failing validation (empty latitude, empty
longitude, empty description, description longer than 500 characters, or a
status outside the enumerated set), the full form submit leaves the cache
unchanged, issues no store call, and reports a nonempty list of field-level
errors: handleSubmit runs the zod resolver and calls the controller only on
success. -/
theorem C4_validation_failure_aborts
    (raw : RawDraft) (initialData : Option Report) (storeResult : StoreWriteResult)
    (now : Nat) (mkUrl : PhotoFile → String) (prev : List Report)
    (h : raw.latitude = "" ∨ raw.longitude = "" ∨ raw.description = "" ∨
         500 < raw.description.length ∨ parseStatus raw.status = none) :
    (formSubmit raw initialData storeResult now mkUrl prev).reports = prev ∧
    (formSubmit raw initialData storeResult now mkUrl prev).storeCalled = false ∧
    (formSubmit raw initialData storeResult now mkUrl prev).fieldErrors ≠ [] := by
  have hne := validationErrors_ne_nil raw h
  have hs := reportSchema_error_of_ne_nil raw hne
  unfold formSubmit
  rw [hs]
  exact ⟨rfl, rfl, hne⟩

/-- C4 (witness): the theorem applied to the concrete raw draft with empty
latitude, an available store, clock 0 and the one-entry cache. -/
theorem C4_witness :
    (rawInvalid.latitude = "" ∨ rawInvalid.longitude = "" ∨
      rawInvalid.description = "" ∨ 500 < rawInvalid.description.length ∨
      parseStatus rawInvalid.status = none) ∧
    ((formSubmit rawInvalid none (.ok "srv1") 0 sampleUrl [reportA]).reports
        = [reportA] ∧
      (formSubmit rawInvalid none (.ok "srv1") 0 sampleUrl [reportA]).storeCalled
        = false ∧
      (formSubmit rawInvalid none (.ok "srv1") 0 sampleUrl [reportA]).fieldErrors
        ≠ []) :=
  ⟨Or.inl rfl,
    C4_validation_failure_aborts rawInvalid none (.ok "srv1") 0 sampleUrl [reportA]
      (Or.inl rfl)⟩

/-- C5 (counterexample to the claim as stated): with the corrupted string
under the cableReports key (a string on which the modelled JSON.parse
fails), the admin local-storage load initializes the cache empty, but the
key afterwards still holds the corrupted string: the catch block only logs
and never removes the key, so the key is not cleared as the claim states. -/
theorem C5_counterexample :
    adminLoadReports (some "corrupted") (fun _ => none) = [] ∧
    adminStoredKeyAfterLoad (some "corrupted") (fun _ => none)
      = some "corrupted" :=
  ⟨rfl, rfl⟩

/-- C5 (amended): when the local-storage fallback is given a corrupted
(non-parseable) string under the persistence key at initialization, it does
not crash and the cache initializes empty, but the persistence key is left
holding the corrupted string unchanged rather than being cleared. -/
theorem C5_amended_corrupted_snapshot_empty_cache_key_unchanged
    (s : String) (parse : String → Option (List Report))
    (hc : parse s = none) :
    adminLoadReports (some s) parse = [] ∧
    adminStoredKeyAfterLoad (some s) parse = some s := by
  refine ⟨?_, rfl⟩
  show (match parse s with | some l => l | none => ([] : List Report)) = []
  rw [hc]

/-- C5 (witness): the amended theorem applied to the concrete corrupted
string and the everywhere-failing parse. -/
theorem C5_amended_witness :
    (fun _ : String => (none : Option (List Report))) "corrupted" = none ∧
    (adminLoadReports (some "corrupted") (fun _ => none) = [] ∧
      adminStoredKeyAfterLoad (some "corrupted") (fun _ => none)
        = some "corrupted") :=
  ⟨rfl,
    C5_amended_corrupted_snapshot_empty_cache_key_unchanged "corrupted"
      (fun _ => none) rfl⟩

/-- C6: a report is removed from the cache only after the store delete
succeeds: whenever the store delete fails the cache is exactly the previous
cache (every entry still present), and any entry that disappears from the
cache across handleDeleteReport did so under a confirmed call whose store
delete succeeded, and matched the deleted id. -/
theorem C6_delete_final_only_on_store_success
    (confirmed storeOk : Bool) (rid : String) (prev : List Report) :
    (storeOk = false → (handleDeleteReport confirmed storeOk rid prev).1 = prev) ∧
    (∀ r ∈ prev, r ∉ (handleDeleteReport confirmed storeOk rid prev).1 →
      confirmed = true ∧ storeOk = true ∧ r.id = rid) := by
  unfold handleDeleteReport
  cases confirmed with
  | false =>
      exact ⟨fun _ => rfl, fun r hr hnot => absurd hr hnot⟩
  | true =>
      cases storeOk with
      | false =>
          exact ⟨fun _ => rfl, fun r hr hnot => absurd hr hnot⟩
      | true =>
          refine ⟨fun hco => by simp at hco, ?_⟩
          intro r hr hnot
          refine ⟨rfl, rfl, ?_⟩
          simp only [Bool.true_eq_false, if_false, if_true, List.mem_filter,
            decide_eq_true_eq] at hnot
          by_contra hne
          exact hnot ⟨hr, hne⟩

/-- C6 (witness): the theorem applied to a confirmed, successful delete of
id a from the one-entry cache, whose entry is indeed removed. -/
theorem C6_witness :
    reportA ∈ [reportA] ∧
    reportA ∉ (handleDeleteReport true true "a" [reportA]).1 ∧
    ((true : Bool) = true ∧ (true : Bool) = true ∧ reportA.id = "a") :=
  ⟨by decide, by decide,
    (C6_delete_final_only_on_store_success true true "a" [reportA]).2 reportA
      (by decide) (by decide)⟩

/-- C7: for every edit submit whose draft contains no new photo and whose
store update succeeds, the merged entry spliced into the cache retains the
prior photoFileName, while latitude, longitude, status and description are
overwritten by the draft values; the merged entry is present in the updated
cache at the edited id. -/
theorem C7_edit_without_new_photo_retains_photoFileName
    (formData : ReportFormValues) (hphoto : formData.photo = none)
    (eid docId : String) (now : Nat) (mkUrl : PhotoFile → String)
    (prev : List Report) (r : Report) (hr : r ∈ prev) (hid : r.id = eid) :
    mergeReport r formData now mkUrl ∈
      (handleFormSubmit formData (some eid) (.ok docId) now mkUrl prev).reports ∧
    (mergeReport r formData now mkUrl).photoFileName = r.photoFileName ∧
    (mergeReport r formData now mkUrl).id = r.id ∧
    (mergeReport r formData now mkUrl).latitude = formData.latitude ∧
    (mergeReport r formData now mkUrl).longitude = formData.longitude ∧
    (mergeReport r formData now mkUrl).status = formData.status ∧
    (mergeReport r formData now mkUrl).description = formData.description := by
  refine ⟨?_, ?_, rfl, rfl, rfl, rfl, rfl⟩
  · have := List.mem_map_of_mem
      (fun x => if x.id = eid then mergeReport x formData now mkUrl else x) hr
    simpa [handleFormSubmit, hid] using this
  · simp [mergeReport, hphoto]

/-- C7 (witness): the theorem applied to the concrete photo-less draft
editing report a inside the two-entry cache. -/
theorem C7_witness :
    sampleDraft.photo = none ∧
    reportA ∈ [reportA, reportB] ∧
    reportA.id = "a" ∧
    (mergeReport reportA sampleDraft 20 sampleUrl ∈
      (handleFormSubmit sampleDraft (some "a") (.ok "") 20 sampleUrl
        [reportA, reportB]).reports ∧
      (mergeReport reportA sampleDraft 20 sampleUrl).photoFileName
        = reportA.photoFileName ∧
      (mergeReport reportA sampleDraft 20 sampleUrl).id = reportA.id ∧
      (mergeReport reportA sampleDraft 20 sampleUrl).latitude
        = sampleDraft.latitude ∧
      (mergeReport reportA sampleDraft 20 sampleUrl).longitude
        = sampleDraft.longitude ∧
      (mergeReport reportA sampleDraft 20 sampleUrl).status
        = sampleDraft.status ∧
      (mergeReport reportA sampleDraft 20 sampleUrl).description
        = sampleDraft.description) :=
  ⟨rfl, by decide, rfl,
    C7_edit_without_new_photo_retains_photoFileName sampleDraft rfl "a" "" 20
      sampleUrl [reportA, reportB] reportA (by decide) rfl⟩

/-- C8: the cache effect of the delete operation is idempotent: for every
confirmation outcome, store outcome, report id and cache state, running
handleDeleteReport twice in sequence with the same arguments yields the same
final cache as running it once. -/
theorem C8_delete_idempotent
    (confirmed storeOk : Bool) (rid : String) (c : List Report) :
    (handleDeleteReport confirmed storeOk rid
        (handleDeleteReport confirmed storeOk rid c).1).1
      = (handleDeleteReport confirmed storeOk rid c).1 := by
  unfold handleDeleteReport
  cases confirmed with
  | false => rfl
  | true =>
      cases storeOk with
      | false => rfl
      | true =>
          simp [List.filter_filter]

/-- C9: deleting a report id not present in the cache leaves the cache
unchanged for every confirmation and store outcome; the operation is total
(it never throws). -/
theorem C9_delete_absent_id_noop
    (confirmed storeOk : Bool) (rid : String) (c : List Report)
    (h : ∀ r ∈ c, r.id ≠ rid) :
    (handleDeleteReport confirmed storeOk rid c).1 = c := by
  unfold handleDeleteReport
  cases confirmed with
  | false => rfl
  | true =>
      cases storeOk with
      | false => rfl
      | true =>
          simp only [Bool.true_eq_false, if_false, if_true]
          rw [List.filter_eq_self]
          intro r hr
          simpa using h r hr

/-- C9 (witness): the theorem applied to a confirmed, store-successful delete
of the absent id z from the two-entry cache. -/
theorem C9_witness :
    (∀ r ∈ [reportA, reportB], r.id ≠ "z") ∧
    (handleDeleteReport true true "z" [reportA, reportB]).1 = [reportA, reportB] :=
  ⟨by decide,
    C9_delete_absent_id_noop true true "z" [reportA, reportB] (by decide)⟩

/-- C10: a submit with an editingId whose store update succeeds preserves the
cache length, leaves every entry whose id differs from editingId exactly
unchanged at its position, and gives the entry at a position holding the
editingId that same id afterwards: editing never changes identity and never
touches other reports. -/
theorem C10_edit_frame
    (formData : ReportFormValues) (eid docId : String) (now : Nat)
    (mkUrl : PhotoFile → String) (prev : List Report) :
    (handleFormSubmit formData (some eid) (.ok docId) now mkUrl prev).reports.length
        = prev.length ∧
    (∀ i (h : i < prev.length)
        (h2 : i <
          (handleFormSubmit formData (some eid) (.ok docId) now mkUrl prev).reports.length),
      ((getElem prev i h).id ≠ eid →
        getElem (handleFormSubmit formData (some eid) (.ok docId) now mkUrl prev).reports
            i h2
          = getElem prev i h) ∧
      ((getElem prev i h).id = eid →
        (getElem (handleFormSubmit formData (some eid) (.ok docId) now mkUrl prev).reports
            i h2).id
          = eid)) := by
  refine ⟨List.length_map _ _, ?_⟩
  intro i h h2
  constructor
  · intro hne
    show getElem
        (prev.map fun r => if r.id = eid then mergeReport r formData now mkUrl else r)
        i h2 = getElem prev i h
    rw [List.getElem_map]
    simp [hne]
  · intro heq
    show (getElem
        (prev.map fun r => if r.id = eid then mergeReport r formData now mkUrl else r)
        i h2).id = eid
    rw [List.getElem_map]
    simp [heq, mergeReport]

/-- C10 (witness): the theorem applied to the edit of id b inside the
two-entry cache, reading off that position 0 (id a) is untouched and
position 1 keeps id b. -/
theorem C10_witness :
    (getElem (handleFormSubmit sampleDraft (some "b") (.ok "") 20 sampleUrl
        [reportA, reportB]).reports 0 (by decide)
      = getElem [reportA, reportB] 0 (by decide)) ∧
    ((getElem (handleFormSubmit sampleDraft (some "b") (.ok "") 20 sampleUrl
        [reportA, reportB]).reports 1 (by decide)).id = "b") :=
  ⟨((C10_edit_frame sampleDraft "b" "" 20 sampleUrl [reportA, reportB]).2 0
      (by decide) (by decide)).1 (by decide),
    ((C10_edit_frame sampleDraft "b" "" 20 sampleUrl [reportA, reportB]).2 1
      (by decide) (by decide)).2 (by decide)⟩

end CableEye
